import Mathlib

/-!
Shallow embedding of the real-time audio / tool-call bridge in
`src/services/geminiService.ts` (class `GeminiLiveService`) together with the
application-level types of `src/types.ts`.

JavaScript numbers (audio clock positions, durations, samples) are modelled as
rationals; nullable object references as `Option`; the DOM objects
(`AudioContext`, `MediaStream`, `ScriptProcessorNode`) as small records holding
exactly the observable state the service reads or writes.  Callback invocations
(`onCommand`, `session.sendToolResponse`) are reified as an event trace
returned next to the updated state.
-/

namespace GeminiLive

/-- Name of the declared system-command tool (`systemCommandTool.name`,
geminiService.ts line 18). -/
def systemCommandToolName : String := "executeSystemCommand"

/-- Success payload queued for each handled tool call
(geminiService.ts line 157). -/
def toolSuccessResult : String := "Command executed successfully"

/-- Observable state of an `AudioContext`: whether `close()` has been called,
and the monotone `currentTime` clock (seconds). -/
structure AudioCtx where
  closed : Bool
  currentTime : ℚ
  deriving DecidableEq

/-- A scheduled output audio unit (`AudioBufferSourceNode` held in
`this.sources`): its scheduled start time, its buffer duration, and whether
playback already finished naturally. -/
structure ScheduledUnit where
  start : ℚ
  duration : ℚ
  finished : Bool
  deriving DecidableEq

/-- Observable state of the microphone `MediaStream`. -/
structure StreamState where
  tracksStopped : Bool
  deriving DecidableEq

/-- Observable state of the `ScriptProcessorNode`. -/
structure ProcessorState where
  connected : Bool
  hasCallback : Bool
  deriving DecidableEq

/-- Instance fields of `GeminiLiveService` (geminiService.ts lines 34-44). -/
structure ServiceState where
  inputAudioContext : Option AudioCtx
  outputAudioContext : Option AudioCtx
  nextStartTime : ℚ
  sources : List ScheduledUnit
  activeStream : Option StreamState
  processor : Option ProcessorState
  sessionPromise : Bool
  outputNode : Bool
  analyser : Bool
  animationFrameId : Option ℕ
  deriving DecidableEq

/-- State right after the constructor runs: every reference null,
`nextStartTime = 0`, `sources` empty (field initializers, lines 35-44). -/
def initialState : ServiceState :=
  { inputAudioContext := none
    outputAudioContext := none
    nextStartTime := 0
    sources := []
    activeStream := none
    processor := none
    sessionPromise := false
    outputNode := false
    analyser := false
    animationFrameId := none }

/-- One inbound tool-call request (`fc` in the handler loop): its id, its
name, and the `command` field of its argument payload, absent when the payload
carries no such field. -/
structure FunctionCall where
  id : String
  name : String
  argsCommand : Option String
  deriving DecidableEq

/-- One queued tool-response acknowledgment (lines 154-158). -/
structure Ack where
  id : String
  name : String
  result : String
  deriving DecidableEq

/-- Externally observable effects of handling one server message:
an `onCommand` callback invocation, or a `session.sendToolResponse` batch. -/
inductive Event where
  | command : Option String → Event
  | sendToolResponse : List Ack → Event
  deriving DecidableEq

/-- Relevant content of a `LiveServerMessage`: optional tool-call request
list, the `serverContent.interrupted` flag, and the decoded samples of an
optional inlined audio payload. -/
structure ServerMessage where
  toolCall : Option (List FunctionCall)
  interrupted : Bool
  audioData : Option (List ℚ)
  deriving DecidableEq

/-- Tool-Call Router step, realized inline at geminiService.ts lines 150-152:
when the request name equals the declared tool name, the `command` argument is
forwarded to `callbacks.onCommand` (exactly one invocation) and is the routed
result; the command value itself is never validated.  Returns the routed
command together with the number of handler invocations. -/
def route (requestName : String) (argsCommand : Option String) :
    Option String × ℕ :=
  if requestName = systemCommandToolName then (argsCommand, 1) else (none, 0)

/-- The tool-call loop of geminiService.ts lines 148-160: walks the request
list in order, invoking `onCommand` and pushing a success acknowledgment for
each request named `executeSystemCommand`, silently skipping every other
request.  Returns the list of `onCommand` arguments (in invocation order) and
the queued acknowledgments. -/
def handleToolCalls : List FunctionCall → List (Option String) × List Ack
  | [] => ([], [])
  | fc :: rest =>
    let r := handleToolCalls rest
    if fc.name = systemCommandToolName then
      (fc.argsCommand :: r.1, ⟨fc.id, fc.name, toolSuccessResult⟩ :: r.2)
    else r

/-- Start-time computation of the playback scheduler (line 185):
`Math.max(this.nextStartTime, this.outputAudioContext.currentTime)`. -/
def scheduleStart (cursor clock : ℚ) : ℚ := max cursor clock

/-- `source.stop()` on an `AudioBufferSourceNode`: raises when the unit
already finished playing. -/
def stopSource (u : ScheduledUnit) : Except String Unit :=
  if u.finished then Except.error "InvalidStateError" else Except.ok ()

/-- The interruption loop of lines 174-176: `try { source.stop() } catch {}`
for every scheduled unit — each raise is swallowed, so the sweep always
succeeds. -/
def tryStopAll : List ScheduledUnit → Except String Unit
  | [] => Except.ok ()
  | u :: rest =>
    match stopSource u with
    | _ => tryStopAll rest

/-- Interruption handling (lines 173-179): stop all units, clear `sources`,
reset `nextStartTime` to 0. -/
def interruptPlayback (s : ServiceState) : ServiceState :=
  match tryStopAll s.sources with
  | _ => { s with sources := [], nextStartTime := 0 }

/-- Duration of a decoded audio buffer: sample count over the 24 kHz output
rate (line 188, `createAudioBuffer(audioBytes, ctx, 24000)`). -/
def audioFrameDuration (samples : List ℚ) : ℚ := (samples.length : ℚ) / 24000

/-- Events emitted by the tool-call block of `handleServerMessage` (lines
147-168): each request named `executeSystemCommand` invokes `onCommand` and
queues an acknowledgment; if any acknowledgment was queued and a session
promise exists, one `sendToolResponse` batch follows the handler
invocations. -/
def messageEvents (s : ServiceState) (m : ServerMessage) : List Event :=
  match m.toolCall with
  | none => []
  | some fcs =>
    (handleToolCalls fcs).1.map Event.command ++
      (if (handleToolCalls fcs).2.isEmpty || !s.sessionPromise then []
       else [Event.sendToolResponse (handleToolCalls fcs).2])

/-- State mutation performed by `handleServerMessage` after the tool-call
block: the null guard (line 170), the interruption branch (lines 173-180),
and the audio-scheduling branch (lines 183-201). -/
def messageState (s : ServiceState) (m : ServerMessage) : ServiceState :=
  match s.outputAudioContext, s.outputNode with
  | some ctx, true =>
    if m.interrupted then interruptPlayback s
    else
      match m.audioData with
      | none => s
      | some samples =>
        { s with
            nextStartTime := scheduleStart s.nextStartTime ctx.currentTime
              + audioFrameDuration samples
            sources := s.sources ++
              [⟨scheduleStart s.nextStartTime ctx.currentTime,
                audioFrameDuration samples, false⟩] }
  | _, _ => s

/-- `handleServerMessage` (geminiService.ts lines 145-202): the tool-call
block runs first and emits its events unconditionally; the playback state is
then updated behind the null guard. -/
def handleServerMessage (s : ServiceState) (m : ServerMessage) :
    ServiceState × List Event :=
  (messageState s m, messageEvents s m)

/-- Successful completion of `connect` (lines 50-123): fresh 16 kHz input and
24 kHz output contexts (clock at 0), gain node and analyser wired, visualizer
loop started, microphone acquired, session promise stored.  `nextStartTime`
and `sources` are not touched — they are set only by the field initializers at
construction. -/
def connect (s : ServiceState) : ServiceState :=
  { s with
      inputAudioContext := some ⟨false, 0⟩
      outputAudioContext := some ⟨false, 0⟩
      outputNode := true
      analyser := true
      animationFrameId := some 1
      activeStream := some ⟨false⟩
      sessionPromise := true }

/-- `AudioContext.close()`: raises `InvalidStateError` on an already-closed
context, otherwise marks it closed. -/
def closeContext (c : AudioCtx) : Except String AudioCtx :=
  if c.closed then Except.error "InvalidStateError"
  else Except.ok { c with closed := true }

/-- Close a context reference when present (`if (ctx) await ctx.close()`). -/
def closeIfPresent (oc : Option AudioCtx) : Except String Unit :=
  match oc with
  | none => Except.ok ()
  | some c =>
    match closeContext c with
    | Except.error e => Except.error e
    | Except.ok _ => Except.ok ()

/-- First phase of `disconnect` (geminiService.ts lines 215-222): detach the
processor and clear its callback when present, stop the microphone tracks
when present.  The processor reference itself, the output node, analyser,
frame id, session promise and `nextStartTime` are left as they were. -/
def detachLocal (s : ServiceState) : ServiceState :=
  match s.processor, s.activeStream with
  | none, none => s
  | none, some _ => { s with activeStream := some ⟨true⟩ }
  | some _, none => { s with processor := some ⟨false, false⟩ }
  | some _, some _ =>
    { s with processor := some ⟨false, false⟩, activeStream := some ⟨true⟩ }

/-- Continuation of `disconnect`: detach processor and stop tracks (lines
215-222 — `detachLocal`), close each context when present (lines 224-229),
then clear `sources` and null the stream and context references (lines
235-238). -/
def disconnect (s : ServiceState) : Except String ServiceState :=
  match closeIfPresent (detachLocal s).inputAudioContext with
  | Except.error e => Except.error e
  | Except.ok _ =>
    match closeIfPresent (detachLocal s).outputAudioContext with
    | Except.error e => Except.error e
    | Except.ok _ =>
      Except.ok { detachLocal s with
        sources := []
        activeStream := none
        inputAudioContext := none
        outputAudioContext := none }

/-- A server message carrying only an inlined audio payload. -/
def audioMessage (samples : List ℚ) : ServerMessage :=
  ⟨none, false, some samples⟩

/-- Advance the output clock: `outputAudioContext.currentTime` is read-only
external state; this models its value at the moment a message arrives. -/
def setClock (s : ServiceState) (t : ℚ) : ServiceState :=
  { s with outputAudioContext :=
      s.outputAudioContext.map fun c => { c with currentTime := t } }

/-- Deliver a sequence of audio-only messages, the output clock reading
`clock` when each arrives. -/
def runAudioMessages : ServiceState → List (List ℚ × ℚ) → ServiceState
  | s, [] => s
  | s, (samples, clock) :: rest =>
    runAudioMessages
      ((handleServerMessage (setClock s clock) (audioMessage samples)).1) rest

/-- Units produced by iterating the enqueue step of lines 185-200 on a list of
(duration, clock-at-enqueue) pairs starting from cursor `cursor`. -/
def scheduledList (cursor : ℚ) : List (ℚ × ℚ) → List ScheduledUnit
  | [] => []
  | (d, c) :: rest =>
    let st := scheduleStart cursor c
    ⟨st, d, false⟩ :: scheduledList (st + d) rest

/-- Start times assigned by successive enqueues. -/
def startTimes (cursor : ℚ) (l : List (ℚ × ℚ)) : List ℚ :=
  (scheduledList cursor l).map ScheduledUnit.start

/-- The output clock never overtook the playback cursor during the sequence:
at each enqueue the clock reading is at most the incoming cursor. -/
def clockNeverOutran : ℚ → List (ℚ × ℚ) → Bool
  | _, [] => true
  | cursor, (d, c) :: rest =>
    decide (c ≤ cursor) && clockNeverOutran (scheduleStart cursor c + d) rest

/-- Durations and clock readings of a list of audio messages. -/
def durationsClocks (msgs : List (List ℚ × ℚ)) : List (ℚ × ℚ) :=
  msgs.map fun m => (audioFrameDuration m.1, m.2)

/-- Visualizer tick (geminiService.ts lines 71-84): average of the byte
frequency-bin magnitudes, passed to `onAudioData` unnormalized. -/
def updateVisualizerAmplitude (bins : List ℕ) : ℚ :=
  ((bins.sum : ℕ) : ℚ) / ((bins.length : ℕ) : ℚ)

/-- Modelled from the spec: `audioUtils.ts` (imported at geminiService.ts
line 2 for `createBlob`, `decodePCM`, `createAudioBuffer`) is not in the
source tree.  Encoding clamps each sample to `[-1, 1]` (spec §4.1). -/
def clampSample (x : ℚ) : ℚ := max (-1) (min 1 x)

/-- Modelled from the spec: each clamped sample is scaled by 32767 and
converted to a 16-bit signed integer (spec §4.1), taken to the nearest
integer. -/
def encodeSample (x : ℚ) : ℤ := round (clampSample x * 32767)

/-- Modelled from the spec: little-endian byte pair of a 16-bit signed
integer (two's complement). -/
def int16ToBytes (i : ℤ) : List ℕ :=
  [(i % 65536).toNat % 256, (i % 65536).toNat / 256]

/-- Modelled from the spec: `encode` — clamp, scale by 32767, emit 16-bit
signed little-endian bytes, concatenated in order (spec §4.1). -/
def encodeSamples : List ℚ → List ℕ
  | [] => []
  | x :: rest => int16ToBytes (encodeSample x) ++ encodeSamples rest

/-- Modelled from the spec: `decode` removes the transport envelope and
returns the raw byte buffer unchanged (spec §4.1); on payload bytes it is the
identity. -/
def decodePCM (bytes : List ℕ) : List ℕ := bytes

/-- Modelled from the spec: reinterpret a little-endian byte pair as a 16-bit
signed integer. -/
def bytesToInt16 (b0 b1 : ℕ) : ℤ :=
  if b0 % 256 + 256 * (b1 % 256) < 32768 then (b0 % 256 + 256 * (b1 % 256) : ℕ)
  else (b0 % 256 + 256 * (b1 % 256) : ℕ) - 65536

/-- Modelled from the spec: recover the sample sequence from raw bytes,
rescaling each 16-bit value back to `[-1, 1]` by the inverse of the ×32767
encoding scale, truncating a trailing incomplete sample silently (spec §4.1). -/
def bytesToSamples : List ℕ → List ℚ
  | b0 :: b1 :: rest => ((bytesToInt16 b0 b1 : ℤ) : ℚ) / 32767 :: bytesToSamples rest
  | _ => []

/-- Modelled from the spec: `bytesToAudioBuffer(raw bytes, sampleRate)` —
reinterpret as 16-bit little-endian signed integers, rescale to `[-1, 1]`
floats, at the caller-supplied rate (spec §4.1). -/
def bytesToAudioBuffer (bytes : List ℕ) (sampleRate : ℕ) : List ℚ :=
  bytesToSamples (decodePCM bytes)

/-! ## Theorems -/

/-- Claim C1, counterexample: a request named `executeSystemCommand` whose
`command` value is the literal `"invalid"` — outside the three recognized
literals — still invokes the registered command callback (exactly once, with
that value) and the router still returns the value, contradicting the claim
that such a request returns nothing and invokes no handler. -/
theorem tool_routing_selectivity_counterexample :
    (route systemCommandToolName (some "invalid")).2 = 1
    ∧ (handleToolCalls [⟨"call-1", systemCommandToolName, some "invalid"⟩]).1
        = [some "invalid"]
    ∧ (route systemCommandToolName (some "invalid")).1 ≠ none := by
  refine ⟨rfl, rfl, ?_⟩
  intro h
  simp [route, systemCommandToolName] at h

/-- Claim C1 (amended): the router filters on the request name only.  When
the name equals the declared system-command tool name, the command callback is
invoked exactly once with the request's `command` value — whatever it is, even
one outside the three literals or absent — and that value is returned; for
any other name nothing is returned and no handler is invoked. -/
theorem tool_routing_name_selectivity (fc : FunctionCall) :
    route fc.name fc.argsCommand
      = (if fc.name = systemCommandToolName then (fc.argsCommand, 1)
         else (none, 0))
    ∧ handleToolCalls [fc]
      = (if fc.name = systemCommandToolName
         then ([fc.argsCommand], [⟨fc.id, fc.name, toolSuccessResult⟩])
         else ([], [])) := by
  refine ⟨rfl, ?_⟩
  by_cases h : fc.name = systemCommandToolName <;>
    simp [handleToolCalls, h]

/-- Claim C9: every value the visualizer loop passes to `onAudioData` is the
arithmetic mean of the 8-bit frequency-bin magnitudes and therefore lies in
`[0, 255]`; it is not normalized to `[0, 1]` — an all-loud spectrum of the
128 analyser bins yields 255. -/
theorem visualizer_amplitude_range (bins : List ℕ)
    (h : ∀ b ∈ bins, b ≤ 255) :
    0 ≤ updateVisualizerAmplitude bins
    ∧ updateVisualizerAmplitude bins ≤ 255
    ∧ updateVisualizerAmplitude (List.replicate 128 255) = 255 := by
  refine ⟨?_, ?_, by norm_num [updateVisualizerAmplitude]⟩
  · unfold updateVisualizerAmplitude
    positivity
  · rcases eq_or_ne bins [] with rfl | hne
    · simp [updateVisualizerAmplitude]
    · have hlen : (0 : ℚ) < (bins.length : ℚ) := by
        exact_mod_cast List.length_pos.mpr hne
      rw [updateVisualizerAmplitude, div_le_iff₀ hlen]
      have hsum : bins.sum ≤ bins.length * 255 := by
        simpa [smul_eq_mul] using List.sum_le_card_nsmul bins 255 h
      have : (bins.sum : ℚ) ≤ (bins.length : ℚ) * 255 := by exact_mod_cast hsum
      linarith

/-- Witness for C9 at a concrete bin spectrum. -/
theorem visualizer_amplitude_range_witness :
    0 ≤ updateVisualizerAmplitude [0, 255]
    ∧ updateVisualizerAmplitude [0, 255] ≤ 255
    ∧ updateVisualizerAmplitude (List.replicate 128 255) = 255 :=
  visualizer_amplitude_range [0, 255] (by decide)

/-- Helper: the interruption sweep over the scheduled units, with its
per-unit try/catch, succeeds on every unit list — stopping an
already-finished unit is swallowed, never surfaced. -/
theorem tryStopAll_ok (l : List ScheduledUnit) : tryStopAll l = Except.ok () := by
  induction l with
  | nil => rfl
  | cons u rest ih => simpa [tryStopAll] using ih

/-- Claim C3: after the interruption branch runs — every scheduled unit
stopped, with stops on already-finished units tolerated — the scheduled-unit
set is empty and `nextStartTime` is 0, so the next enqueue in that state
starts exactly at the live output clock, independent of any pre-interruption
cursor value. -/
theorem interruption_clears_playback_state (s : ServiceState) (ctx : AudioCtx)
    (samples : List ℚ)
    (hctx : s.outputAudioContext = some ctx) (hnode : s.outputNode = true)
    (hclock : 0 ≤ ctx.currentTime) :
    tryStopAll s.sources = Except.ok ()
    ∧ (interruptPlayback s).sources = []
    ∧ (interruptPlayback s).nextStartTime = 0
    ∧ (handleServerMessage (interruptPlayback s) (audioMessage samples)).1.sources
        = [⟨ctx.currentTime, audioFrameDuration samples, false⟩] := by
  refine ⟨tryStopAll_ok _, rfl, rfl, ?_⟩
  simp [handleServerMessage, messageState, interruptPlayback, audioMessage,
    hctx, hnode, scheduleStart, max_eq_right hclock]

/-- Witness for C3: a state holding one already-finished unit and one live
unit, with an advanced cursor. -/
theorem interruption_clears_playback_state_witness :
    tryStopAll ({ connect initialState with
        sources := [⟨0, 1, true⟩, ⟨0, 2, false⟩], nextStartTime := 5 } :
          ServiceState).sources = Except.ok ()
    ∧ (interruptPlayback { connect initialState with
        sources := [⟨0, 1, true⟩, ⟨0, 2, false⟩], nextStartTime := 5 }).sources = []
    ∧ (interruptPlayback { connect initialState with
        sources := [⟨0, 1, true⟩, ⟨0, 2, false⟩], nextStartTime := 5 }).nextStartTime = 0
    ∧ (handleServerMessage (interruptPlayback { connect initialState with
          sources := [⟨0, 1, true⟩, ⟨0, 2, false⟩], nextStartTime := 5 })
        (audioMessage [0, 0, 0])).1.sources
        = [⟨(⟨false, 0⟩ : AudioCtx).currentTime, audioFrameDuration [0, 0, 0], false⟩] :=
  interruption_clears_playback_state _ ⟨false, 0⟩ [0, 0, 0] rfl rfl (by norm_num)

/-- Claim C4: when a message carries both the interruption flag and an
inlined audio payload (with the output context and node live), handling it
leaves the scheduled-unit set empty and resets the cursor — the audio payload
of that same message is never scheduled. -/
theorem interruption_short_circuits_message (s : ServiceState) (ctx : AudioCtx)
    (m : ServerMessage) (samples : List ℚ)
    (hctx : s.outputAudioContext = some ctx) (hnode : s.outputNode = true)
    (hint : m.interrupted = true) (haudio : m.audioData = some samples) :
    (handleServerMessage s m).1.sources = []
    ∧ (handleServerMessage s m).1.nextStartTime = 0 := by
  constructor <;>
    simp [handleServerMessage, messageState, hctx, hnode, hint, interruptPlayback]

/-- Witness for C4: a connected state receiving a message that has both the
interruption flag and audio samples. -/
theorem interruption_short_circuits_message_witness :
    (handleServerMessage
        { connect initialState with
            sources := [⟨0, 1, false⟩], nextStartTime := 1 }
        ⟨none, true, some [0, 0, 0]⟩).1.sources = []
    ∧ (handleServerMessage
        { connect initialState with
            sources := [⟨0, 1, false⟩], nextStartTime := 1 }
        ⟨none, true, some [0, 0, 0]⟩).1.nextStartTime = 0 :=
  interruption_short_circuits_message _ ⟨false, 0⟩ _ [0, 0, 0] rfl rfl rfl rfl

/-- Helper: the acknowledgment queue built by the tool-call loop is exactly
one success record per request named for the system-command tool, in order,
echoing each request's id and name. -/
theorem handleToolCalls_acks (fcs : List FunctionCall) :
    (handleToolCalls fcs).2
      = fcs.filterMap (fun fc =>
          if fc.name = systemCommandToolName
          then some ⟨fc.id, fc.name, toolSuccessResult⟩ else none) := by
  induction fcs with
  | nil => rfl
  | cons fc rest ih =>
    by_cases h : fc.name = systemCommandToolName <;>
      simp [handleToolCalls, List.filterMap_cons, h, ih]

/-- Claim C5: in every message carrying tool-call requests (received over a
live session), each request named for the system-command tool yields exactly
one queued success acknowledgment echoing its id and name, requests with any
other name yield neither acknowledgment nor error, and the queued
acknowledgments are emitted in a single `sendToolResponse` batch after all the
message's handler invocations. -/
theorem ack_single_batch (s : ServiceState) (m : ServerMessage)
    (fcs : List FunctionCall)
    (htc : m.toolCall = some fcs) (hsess : s.sessionPromise = true) :
    (handleToolCalls fcs).2
      = fcs.filterMap (fun fc =>
          if fc.name = systemCommandToolName
          then some ⟨fc.id, fc.name, toolSuccessResult⟩ else none)
    ∧ (handleServerMessage s m).2
      = (handleToolCalls fcs).1.map Event.command
        ++ (if (handleToolCalls fcs).2.isEmpty then []
            else [Event.sendToolResponse (handleToolCalls fcs).2]) := by
  refine ⟨handleToolCalls_acks fcs, ?_⟩
  simp [handleServerMessage, messageEvents, htc, hsess]

/-- Witness for C5: one matching, one unrecognized and one further matching
request in a single message over a live session. -/
theorem ack_single_batch_witness :
    (handleToolCalls
        [⟨"a", systemCommandToolName, some "restart"⟩,
         ⟨"b", "someOtherTool", some "restart"⟩,
         ⟨"c", systemCommandToolName, some "shutdown"⟩]).2
      = ([⟨"a", systemCommandToolName, some "restart"⟩,
          ⟨"b", "someOtherTool", some "restart"⟩,
          ⟨"c", systemCommandToolName, some "shutdown"⟩] :
            List FunctionCall).filterMap
          (fun fc =>
            if fc.name = systemCommandToolName
            then some ⟨fc.id, fc.name, toolSuccessResult⟩ else none)
    ∧ (handleServerMessage (connect initialState)
        ⟨some [⟨"a", systemCommandToolName, some "restart"⟩,
               ⟨"b", "someOtherTool", some "restart"⟩,
               ⟨"c", systemCommandToolName, some "shutdown"⟩], false, none⟩).2
      = (handleToolCalls
          [⟨"a", systemCommandToolName, some "restart"⟩,
           ⟨"b", "someOtherTool", some "restart"⟩,
           ⟨"c", systemCommandToolName, some "shutdown"⟩]).1.map Event.command
        ++ (if (handleToolCalls
              [⟨"a", systemCommandToolName, some "restart"⟩,
               ⟨"b", "someOtherTool", some "restart"⟩,
               ⟨"c", systemCommandToolName, some "shutdown"⟩]).2.isEmpty then []
            else [Event.sendToolResponse (handleToolCalls
              [⟨"a", systemCommandToolName, some "restart"⟩,
               ⟨"b", "someOtherTool", some "restart"⟩,
               ⟨"c", systemCommandToolName, some "shutdown"⟩]).2]) :=
  ack_single_batch (connect initialState) _ _ rfl rfl

/-- Helper: fields of the state a successful `disconnect` returns — both
context references and the stream reference are nulled, the scheduled-unit
set is cleared, and the session promise is untouched. -/
theorem disconnect_ok_fields (s s' : ServiceState)
    (h : disconnect s = Except.ok s') :
    s'.outputAudioContext = none ∧ s'.inputAudioContext = none
    ∧ s'.activeStream = none ∧ s'.sources = []
    ∧ s'.sessionPromise = s.sessionPromise := by
  have hsp : (detachLocal s).sessionPromise = s.sessionPromise := by
    unfold detachLocal
    rcases hp : s.processor <;> rcases ha : s.activeStream <;> rfl
  unfold disconnect at h
  split at h
  · exact absurd h (by simp)
  · split at h
    · exact absurd h (by simp)
    · rw [Except.ok.injEq] at h
      subst h
      exact ⟨rfl, rfl, rfl, rfl, hsp⟩

/-- Claim C10: after `disconnect` has run, a further server message still has
its `executeSystemCommand` tool calls routed — every handler invocation and
the acknowledgment batch happen exactly as on a live connection — while the
interruption flag and audio payload of the same message leave the state
untouched, because the output context reference was cleared. -/
theorem tool_calls_survive_teardown (s s' : ServiceState) (m : ServerMessage)
    (fcs : List FunctionCall)
    (hd : disconnect s = Except.ok s') (hsess : s.sessionPromise = true)
    (htc : m.toolCall = some fcs) :
    (handleServerMessage s' m).2
      = (handleToolCalls fcs).1.map Event.command
        ++ (if (handleToolCalls fcs).2.isEmpty then []
            else [Event.sendToolResponse (handleToolCalls fcs).2])
    ∧ (handleServerMessage s' m).1 = s' := by
  obtain ⟨hoc, _, _, _, hsp⟩ := disconnect_ok_fields s s' hd
  constructor
  · simp [handleServerMessage, messageEvents, htc, hsp, hsess]
  · simp [handleServerMessage, messageState, hoc]

/-- Witness for C10: disconnect a connected session, then deliver a message
carrying a matching tool call, the interruption flag and audio samples. -/
theorem tool_calls_survive_teardown_witness :
    (handleServerMessage
        { initialState with
            sessionPromise := true
            outputNode := true
            analyser := true
            animationFrameId := some 1
            processor := some ⟨false, false⟩ }
        ⟨some [⟨"a", systemCommandToolName, some "shutdown"⟩], true, some [0, 0, 0]⟩).2
      = (handleToolCalls [⟨"a", systemCommandToolName, some "shutdown"⟩]).1.map
          Event.command
        ++ (if (handleToolCalls
              [⟨"a", systemCommandToolName, some "shutdown"⟩]).2.isEmpty then []
            else [Event.sendToolResponse (handleToolCalls
              [⟨"a", systemCommandToolName, some "shutdown"⟩]).2])
    ∧ (handleServerMessage
        { initialState with
            sessionPromise := true
            outputNode := true
            analyser := true
            animationFrameId := some 1
            processor := some ⟨false, false⟩ }
        ⟨some [⟨"a", systemCommandToolName, some "shutdown"⟩], true, some [0, 0, 0]⟩).1
      = { initialState with
            sessionPromise := true
            outputNode := true
            analyser := true
            animationFrameId := some 1
            processor := some ⟨false, false⟩ } :=
  tool_calls_survive_teardown
    { connect initialState with processor := some ⟨true, true⟩ } _ _ _ rfl rfl rfl

/-- Claim C6: from any state whose context references are absent or still
open — which covers a never-completed `connect` as well as the state a
previous `disconnect` left behind — `disconnect` runs to completion without
raising, nulls the stream and both context references, and running it a
second time succeeds and changes nothing. -/
theorem idempotent_teardown (s : ServiceState)
    (hin : s.inputAudioContext.all (fun c => !c.closed) = true)
    (hout : s.outputAudioContext.all (fun c => !c.closed) = true) :
    ∃ s', disconnect s = Except.ok s'
      ∧ s'.activeStream = none ∧ s'.inputAudioContext = none
      ∧ s'.outputAudioContext = none
      ∧ disconnect s' = Except.ok s' := by
  obtain ⟨ic, oc, nst, src, ast, pr, sp, onode, an, af⟩ := s
  rcases ic with _ | ⟨icc, ict⟩ <;> rcases oc with _ | ⟨occ, oct⟩ <;>
    simp only [Option.all_none, Option.all_some, Bool.not_eq_eq_eq_not,
      Bool.not_true] at hin hout <;>
    (try subst hin) <;> (try subst hout) <;>
    rcases pr with _ | p <;> rcases ast with _ | a <;>
    exact ⟨_, rfl, rfl, rfl, rfl, rfl⟩

/-- Witness for C6: teardown of a fully connected state, and of the fresh
constructor state where nothing was ever acquired. -/
theorem idempotent_teardown_witness :
    (∃ s', disconnect (connect initialState) = Except.ok s'
      ∧ s'.activeStream = none ∧ s'.inputAudioContext = none
      ∧ s'.outputAudioContext = none
      ∧ disconnect s' = Except.ok s')
    ∧ (∃ s', disconnect initialState = Except.ok s'
      ∧ s'.activeStream = none ∧ s'.inputAudioContext = none
      ∧ s'.outputAudioContext = none
      ∧ disconnect s' = Except.ok s') :=
  ⟨idempotent_teardown (connect initialState) rfl rfl,
   idempotent_teardown initialState rfl rfl⟩

/-- Claim C7, counterexample: drive a fresh service through `connect`, one
audio enqueue (advancing the cursor to 1/8000 s), and `disconnect`; calling
`connect` again on the same instance completes with `nextStartTime` still
1/8000, not 0 — `connect` never resets the playback cursor. -/
theorem playback_cursor_reset_counterexample :
    (disconnect ((handleServerMessage (connect initialState)
          (audioMessage [0, 0, 0])).1)).map
        (fun s => (connect s).nextStartTime)
      = Except.ok (1 / 8000 : ℚ)
    ∧ (1 / 8000 : ℚ) ≠ 0 := by
  constructor
  · norm_num [handleServerMessage, messageState, connect, initialState,
      audioMessage, disconnect, detachLocal, closeIfPresent, closeContext,
      scheduleStart, audioFrameDuration, Except.map]
  · norm_num

/-- Claim C7 (amended): the playback cursor and the scheduled-unit set are
initialized (0 and empty) by the instance field initializers at construction,
not by `connect`; `connect` preserves both, so they hold after the first
`connect` of a fresh instance, but a reconnect on the same instance keeps any
previously advanced cursor. -/
theorem playback_cursor_zero_at_construction (s : ServiceState) :
    initialState.nextStartTime = 0 ∧ initialState.sources = []
    ∧ (connect initialState).nextStartTime = 0
    ∧ (connect initialState).sources = []
    ∧ (connect s).nextStartTime = s.nextStartTime
    ∧ (connect s).sources = s.sources :=
  ⟨rfl, rfl, rfl, rfl, rfl, rfl⟩

/-- Helper: unfolding of the start-time sequence on a cons cell. -/
theorem startTimes_cons (cursor d c : ℚ) (tl : List (ℚ × ℚ)) :
    startTimes cursor ((d, c) :: tl)
      = scheduleStart cursor c
        :: startTimes (scheduleStart cursor c + d) tl := rfl

/-- Helper: each start time is at least the previous start time plus the
previous duration. -/
theorem startTimes_adjacent (l : List (ℚ × ℚ)) (cursor : ℚ) (i : ℕ)
    (hi : i + 1 < l.length) :
    (startTimes cursor l).getD i 0 + (l.getD i (0, 0)).1
      ≤ (startTimes cursor l).getD (i + 1) 0 := by
  induction l generalizing cursor i with
  | nil => simp at hi
  | cons hd tl ih =>
    obtain ⟨d, c⟩ := hd
    rw [startTimes_cons]
    cases i with
    | zero =>
      cases tl with
      | nil => simp at hi
      | cons hd2 tl2 =>
        obtain ⟨d2, c2⟩ := hd2
        rw [startTimes_cons]
        simp only [List.getD_cons_zero, List.getD_cons_succ]
        exact le_max_left _ _
    | succ j =>
      simp only [List.getD_cons_succ]
      exact ih (scheduleStart cursor c + d) j (by simpa using hi)

/-- Helper: when the clock never overtakes the cursor, successive start
times are exactly contiguous. -/
theorem startTimes_adjacent_eq (l : List (ℚ × ℚ)) (cursor : ℚ) (i : ℕ)
    (hi : i + 1 < l.length) (hno : clockNeverOutran cursor l = true) :
    (startTimes cursor l).getD (i + 1) 0
      = (startTimes cursor l).getD i 0 + (l.getD i (0, 0)).1 := by
  induction l generalizing cursor i with
  | nil => simp at hi
  | cons hd tl ih =>
    obtain ⟨d, c⟩ := hd
    rw [clockNeverOutran, Bool.and_eq_true, decide_eq_true_eq] at hno
    obtain ⟨hc, hno'⟩ := hno
    rw [startTimes_cons]
    cases i with
    | zero =>
      cases tl with
      | nil => simp at hi
      | cons hd2 tl2 =>
        obtain ⟨d2, c2⟩ := hd2
        rw [clockNeverOutran, Bool.and_eq_true, decide_eq_true_eq] at hno'
        rw [startTimes_cons]
        simp only [List.getD_cons_zero, List.getD_cons_succ]
        exact max_eq_left hno'.1
    | succ j =>
      simp only [List.getD_cons_succ]
      exact ih (scheduleStart cursor c + d) j (by simpa using hi) hno'

/-- Helper: delivering a sequence of audio-only messages appends exactly the
units the enqueue step produces — each starting at
`max(nextStartTime, clock)`, each advancing the cursor by its duration. -/
theorem runAudioMessages_sources (msgs : List (List ℚ × ℚ)) (s : ServiceState)
    (ctx : AudioCtx) (hctx : s.outputAudioContext = some ctx)
    (hnode : s.outputNode = true) :
    (runAudioMessages s msgs).sources
      = s.sources ++ scheduledList s.nextStartTime (durationsClocks msgs) := by
  induction msgs generalizing s ctx with
  | nil => simp [runAudioMessages, durationsClocks, scheduledList]
  | cons m rest ih =>
    obtain ⟨samples, clock⟩ := m
    have hstep : (handleServerMessage (setClock s clock) (audioMessage samples)).1
        = { s with
            outputAudioContext := some { ctx with currentTime := clock }
            nextStartTime := scheduleStart s.nextStartTime clock
              + audioFrameDuration samples
            sources := s.sources ++
              [⟨scheduleStart s.nextStartTime clock, audioFrameDuration samples,
                false⟩] } := by
      simp [handleServerMessage, messageState, setClock, audioMessage, hctx, hnode]
    have hih := ih ((handleServerMessage (setClock s clock) (audioMessage samples)).1)
      ⟨ctx.closed, clock⟩ (by rw [hstep]) (by rw [hstep]; exact hnode)
    rw [runAudioMessages, hih, hstep]
    simp [durationsClocks, scheduledList]

/-- Claim C2: for a sequence of audio enqueues at non-decreasing output-clock
times, the scheduled units' start times are exactly those of the iterated
`max(nextStartTime, clock)` step; successive start times satisfy
`start_i + d_i ≤ start_{i+1}`, with equality whenever the clock never
overtook the cursor — no overlap and no unintended gap. -/
theorem gapless_scheduling (s : ServiceState) (ctx : AudioCtx)
    (msgs : List (List ℚ × ℚ)) (i : ℕ)
    (hctx : s.outputAudioContext = some ctx) (hnode : s.outputNode = true)
    (hsrc : s.sources = [])
    (hmono : List.Chain' (fun p q : List ℚ × ℚ => p.2 ≤ q.2) msgs)
    (hi : i + 1 < msgs.length) :
    (runAudioMessages s msgs).sources.map ScheduledUnit.start
      = startTimes s.nextStartTime (durationsClocks msgs)
    ∧ (startTimes s.nextStartTime (durationsClocks msgs)).getD i 0
        + ((durationsClocks msgs).getD i (0, 0)).1
      ≤ (startTimes s.nextStartTime (durationsClocks msgs)).getD (i + 1) 0
    ∧ (clockNeverOutran s.nextStartTime (durationsClocks msgs) = true →
        (startTimes s.nextStartTime (durationsClocks msgs)).getD (i + 1) 0
          = (startTimes s.nextStartTime (durationsClocks msgs)).getD i 0
            + ((durationsClocks msgs).getD i (0, 0)).1) := by
  have hlen : i + 1 < (durationsClocks msgs).length := by
    simpa [durationsClocks] using hi
  refine ⟨?_, startTimes_adjacent _ _ i hlen,
    fun hno => startTimes_adjacent_eq _ _ i hlen hno⟩
  rw [runAudioMessages_sources msgs s ctx hctx hnode, hsrc]
  simp [startTimes]

/-- Witness for C2: two three-sample frames delivered at clock times 0 and
1/16000 into a freshly connected service. -/
theorem gapless_scheduling_witness :
    (runAudioMessages (connect initialState)
        [([0, 0, 0], 0), ([0, 0, 0], 1 / 16000)]).sources.map ScheduledUnit.start
      = startTimes (connect initialState).nextStartTime
          (durationsClocks [([0, 0, 0], 0), ([0, 0, 0], 1 / 16000)])
    ∧ (startTimes (connect initialState).nextStartTime
          (durationsClocks [([0, 0, 0], 0), ([0, 0, 0], 1 / 16000)])).getD 0 0
        + ((durationsClocks [([0, 0, 0], 0), ([0, 0, 0], 1 / 16000)]).getD 0 (0, 0)).1
      ≤ (startTimes (connect initialState).nextStartTime
          (durationsClocks [([0, 0, 0], 0), ([0, 0, 0], 1 / 16000)])).getD (0 + 1) 0
    ∧ (clockNeverOutran (connect initialState).nextStartTime
          (durationsClocks [([0, 0, 0], 0), ([0, 0, 0], 1 / 16000)]) = true →
        (startTimes (connect initialState).nextStartTime
            (durationsClocks [([0, 0, 0], 0), ([0, 0, 0], 1 / 16000)])).getD (0 + 1) 0
          = (startTimes (connect initialState).nextStartTime
              (durationsClocks [([0, 0, 0], 0), ([0, 0, 0], 1 / 16000)])).getD 0 0
            + ((durationsClocks
                [([0, 0, 0], 0), ([0, 0, 0], 1 / 16000)]).getD 0 (0, 0)).1) :=
  gapless_scheduling (connect initialState) ⟨false, 0⟩
    [([0, 0, 0], 0), ([0, 0, 0], 1 / 16000)] 0 rfl rfl rfl
    (by constructor <;> norm_num) (by norm_num)

/-- Helper: the little-endian two's-complement byte pair of a 16-bit value
decodes back to the same integer. -/
theorem int16_roundtrip (i : ℤ) (h1 : -32768 ≤ i) (h2 : i ≤ 32767) :
    bytesToInt16 ((i % 65536).toNat % 256) ((i % 65536).toNat / 256) = i := by
  unfold bytesToInt16
  split <;> omega

/-- Helper: clamping is the identity on in-range samples. -/
theorem clampSample_eq_self (x : ℚ) (h : |x| ≤ 1) : clampSample x = x := by
  rw [clampSample, min_eq_right (abs_le.mp h).2, max_eq_right (abs_le.mp h).1]

/-- Helper: the encoded integer of an in-range sample fits in 16 bits. -/
theorem encodeSample_bounds (x : ℚ) (h : |x| ≤ 1) :
    -32768 ≤ encodeSample x ∧ encodeSample x ≤ 32767 := by
  rw [encodeSample, clampSample_eq_self x h, round_eq]
  have h1 : -1 ≤ x := (abs_le.mp h).1
  have h2 : x ≤ 1 := (abs_le.mp h).2
  constructor
  · rw [Int.le_floor]
    push_cast
    linarith
  · have hlt : (⌊x * 32767 + 1 / 2⌋ : ℤ) < 32768 := by
      rw [Int.floor_lt]
      push_cast
      linarith
    omega

/-- Helper: rescaling the encoded integer recovers the sample within one
16-bit quantization step. -/
theorem encodeSample_err (x : ℚ) (h : |x| ≤ 1) :
    |x - ((encodeSample x : ℤ) : ℚ) / 32767| ≤ 1 / 32767 := by
  rw [encodeSample, clampSample_eq_self x h]
  have habs := abs_sub_round (x * 32767)
  have hrw : x - ((round (x * 32767) : ℤ) : ℚ) / 32767
      = (x * 32767 - ((round (x * 32767) : ℤ) : ℚ)) / 32767 := by ring
  rw [hrw, abs_div, show |(32767 : ℚ)| = 32767 by norm_num]
  calc |x * 32767 - ((round (x * 32767) : ℤ) : ℚ)| / 32767
      ≤ (1 / 2) / 32767 := by gcongr
    _ ≤ 1 / 32767 := by norm_num

/-- Helper: the encoding of `n` samples occupies exactly `2 n` bytes. -/
theorem encodeSamples_length (S : List ℚ) :
    (encodeSamples S).length = 2 * S.length := by
  induction S with
  | nil => rfl
  | cons x rest ih =>
    simp [encodeSamples, int16ToBytes, ih]
    omega

/-- Helper: decoding the encoding reconstructs each sample within `1/32767`,
pointwise along the list. -/
theorem codec_forall (S : List ℚ) (h : ∀ x ∈ S, |x| ≤ 1) :
    List.Forall₂ (fun a b => |a - b| ≤ 1 / 32767) S
      (bytesToSamples (encodeSamples S)) := by
  induction S with
  | nil => exact List.Forall₂.nil
  | cons x rest ih =>
    have hx : |x| ≤ 1 := h x (List.mem_cons_self x rest)
    have hrest : ∀ y ∈ rest, |y| ≤ 1 := fun y hy => h y (List.mem_cons_of_mem _ hy)
    have hb := encodeSample_bounds x hx
    show List.Forall₂ _ (x :: rest)
      (bytesToSamples (int16ToBytes (encodeSample x) ++ encodeSamples rest))
    rw [int16ToBytes, List.cons_append, List.cons_append, List.nil_append,
      bytesToSamples, int16_roundtrip (encodeSample x) hb.1 hb.2]
    exact List.Forall₂.cons (encodeSample_err x hx) (ih hrest)

/-- Claim C8: for every sample sequence with values in `[-1, 1]`, the
encoding has even byte length, and decoding it via `bytesToAudioBuffer`
reconstructs every sample within the 16-bit quantization error `1/32767`. -/
theorem codec_round_trip (S : List ℚ) (h : ∀ x ∈ S, |x| ≤ 1) :
    (encodeSamples S).length % 2 = 0
    ∧ List.Forall₂ (fun a b => |a - b| ≤ 1 / 32767) S
        (bytesToAudioBuffer (encodeSamples S) 24000) := by
  refine ⟨?_, ?_⟩
  · rw [encodeSamples_length]
    omega
  · simpa [bytesToAudioBuffer, decodePCM] using codec_forall S h

/-- Witness for C8: round trip of the concrete sequence `[1, 0, -1, 1/3]`. -/
theorem codec_round_trip_witness :
    (encodeSamples [1, 0, -1, 1/3]).length % 2 = 0
    ∧ List.Forall₂ (fun a b => |a - b| ≤ 1 / 32767) [1, 0, -1, 1/3]
        (bytesToAudioBuffer (encodeSamples [1, 0, -1, 1/3]) 24000) :=
  codec_round_trip [1, 0, -1, 1/3] (by norm_num [List.forall_mem_cons, abs_le])

end GeminiLive
